import Mathlib

/-!
Verification development for the Navidrome-to-Last.fm scrobble import script
(`scrobble_import.py`).  The Python code is shallowly embedded: each Python
function of the core engine becomes a Lean definition over explicit state,
network effects are abstracted as per-attempt outcome oracles, and exceptions
become an explicit `PyExc` datatype.
-/

deriving instance DecidableEq for Except

namespace ScrobbleImport

/--
Model of the Python exception classes that matter to `retry_with_backoff`:

* `requestExc` — a `requests.exceptions.RequestException` (covering
  `ConnectionError` and `Timeout`, which are its subclasses) that is not an
  `HTTPError`;
* `wsError` — `pylast.WSError`;
* `httpError status retryAfter` — `requests.exceptions.HTTPError`; `status` is
  `e.response.status_code` when `e.response` is present (`none` when absent),
  `retryAfter` is the parsed `Retry-After` header when present.  In the
  `requests` library, `HTTPError` is a subclass of `RequestException`;
* `otherExc` — any other `Exception`.
-/
inductive PyExc where
  | requestExc : PyExc
  | wsError : PyExc
  | httpError (status : Option Nat) (retryAfter : Option Nat) : PyExc
  | otherExc : PyExc
deriving DecidableEq, Repr

/--
Whether an exception is caught by the first clause
`except (RequestException, ConnectionError, Timeout, WSError)` of
`retry_with_backoff`.  Python tries `except` clauses in order, and
`requests.exceptions.HTTPError` is a subclass of `RequestException`, so an
`HTTPError` is caught here and never reaches the later `except HTTPError`
clause.
-/
def catchesNetClause : PyExc → Bool
  | .requestExc => true
  | .wsError => true
  | .httpError _ _ => true
  | .otherExc => false

/--
Observable outcome of one call to `retry_with_backoff`: the returned value or
raised exception, how many attempts were started, and the sequence of
`time.sleep` durations performed (in order).
-/
structure RetryResult (α : Type) where
  result : Except PyExc α
  attemptsStarted : Nat
  sleeps : List Nat
deriving DecidableEq, Repr

/--
The `for attempt in range(max_retries)` loop of `retry_with_backoff`
(src/scrobble_import.py lines 47-94).  `op i` is the outcome of calling
`func` on attempt `i` (0-based).  `fuel` is the number of remaining loop
iterations (initially `maxRetries`), `delay` the current backoff delay,
`lastExc` the Python `last_exception` variable, `sleeps` the reversed log of
sleeps so far.  When the loop ends without returning, Python executes
`raise last_exception if last_exception else Exception(...)`; the fabricated
generic exception is modelled as `otherExc`.
-/
def retryLoop (op : Nat → Except PyExc α) (maxRetries backoffFactor : Nat) :
    Nat → Nat → Nat → Option PyExc → List Nat → RetryResult α
  | attempt, 0, _delay, lastExc, sleeps =>
      { result := Except.error (lastExc.getD PyExc.otherExc),
        attemptsStarted := attempt, sleeps := sleeps.reverse }
  | attempt, fuel + 1, delay, lastExc, sleeps =>
      match op attempt with
      | Except.ok v =>
          { result := Except.ok v, attemptsStarted := attempt + 1,
            sleeps := sleeps.reverse }
      | Except.error e =>
          if catchesNetClause e then
            -- except (RequestException, ConnectionError, Timeout, WSError)
            if attempt < maxRetries - 1 then
              retryLoop op maxRetries backoffFactor (attempt + 1) fuel
                (delay * backoffFactor) (some e) (delay :: sleeps)
            else
              retryLoop op maxRetries backoffFactor (attempt + 1) fuel
                delay (some e) sleeps
          else
            match e with
            | PyExc.httpError (some status) retryAfter =>
                -- dead `except HTTPError` branch, kept faithful to the source
                if status = 429 then
                  if attempt < maxRetries - 1 then
                    retryLoop op maxRetries backoffFactor (attempt + 1) fuel
                      delay lastExc (retryAfter.getD (delay * 2) :: sleeps)
                  else
                    { result := Except.error e, attemptsStarted := attempt + 1,
                      sleeps := (retryAfter.getD (delay * 2) :: sleeps).reverse }
                else if 500 ≤ status ∧ status < 600 then
                  if attempt < maxRetries - 1 then
                    retryLoop op maxRetries backoffFactor (attempt + 1) fuel
                      (delay * backoffFactor) lastExc (delay :: sleeps)
                  else
                    { result := Except.error e, attemptsStarted := attempt + 1,
                      sleeps := sleeps.reverse }
                else
                  { result := Except.error e, attemptsStarted := attempt + 1,
                    sleeps := sleeps.reverse }
            | _ =>
                -- except Exception: don't retry
                { result := Except.error e, attemptsStarted := attempt + 1,
                  sleeps := sleeps.reverse }

/-- `retry_with_backoff(func, max_retries, initial_delay, backoff_factor)`. -/
def retry_with_backoff (op : Nat → Except PyExc α)
    (maxRetries initialDelay backoffFactor : Nat) : RetryResult α :=
  retryLoop op maxRetries backoffFactor 0 maxRetries initialDelay none []

/-- An HTTP 401 (auth) error response, with no `Retry-After` header. -/
def authErr : PyExc := PyExc.httpError (some 401) none

/-- An HTTP 429 response carrying `Retry-After: 5`. -/
def rateErr : PyExc := PyExc.httpError (some 429) (some 5)

/--
C1: the spec claims a 4xx HTTP error other than 429 (e.g. an auth error)
aborts immediately with no further attempts and no backoff sleep.  The code
violates this: because `requests.exceptions.HTTPError` is a subclass of
`RequestException`, the first `except` clause of `retry_with_backoff` catches
it and retries it as a transient network error.  The dead `except HTTPError`
branch (whose comments describe exactly the claimed fail-fast behaviour)
never runs.  With an operation that always raises an HTTP 401 and the default
parameters `max_retries=3, initial_delay=1, backoff_factor=2`, the executor
starts 3 attempts and sleeps 1s then 2s before finally surfacing the error.
-/
theorem retry_on_4xx_retries_instead_of_aborting :
    retry_with_backoff (fun _ => (Except.error authErr : Except PyExc Unit)) 3 1 2 =
      { result := Except.error authErr, attemptsStarted := 3, sleeps := [1, 2] } := by
  decide

/--
C2: the spec claims an HTTP 429 makes the executor sleep the server-provided
`Retry-After` seconds (here 5) before the next attempt, instead of the
computed backoff delay.  The code violates this: the 429 is caught by the
first `except` clause (since `HTTPError` subclasses `RequestException`), so
the executor sleeps the ordinary backoff delays 1s and 2s, never reads
`Retry-After`, and the running delay IS multiplied by the backoff factor.
The result is moreover independent of the `Retry-After` value.
-/
theorem retry_on_429_ignores_retry_after :
    retry_with_backoff (fun _ => (Except.error rateErr : Except PyExc Unit)) 3 1 2 =
      { result := Except.error rateErr, attemptsStarted := 3, sleeps := [1, 2] } ∧
    (retry_with_backoff (fun _ =>
        (Except.error (PyExc.httpError (some 429) (some 999)) : Except PyExc Unit)) 3 1 2).sleeps =
      (retry_with_backoff (fun _ => (Except.error rateErr : Except PyExc Unit)) 3 1 2).sleeps := by
  exact ⟨by decide, by decide⟩

/-! ## TrackMatcher (`find_track`, src/scrobble_import.py lines 110-146) -/

/-- `normalize(s)`: `s.lower().strip()`.  `normalize_cached` memoizes the same
function; memoization is semantically transparent, so both are modelled by
this one definition. -/
def normalize (s : String) : String := s.toLower.trim

/--
A remote track handle as returned by `network.get_track` or by the fuzzy
search.  `playcountResult` is the outcome of calling `track.get_userplaycount()`
on it (the remote read may raise). -/
structure RemoteTrack where
  artist : String
  title : String
  playcountResult : Except PyExc Nat
deriving DecidableEq, Repr

/--
Environment of one execution of the inner `_find` closure: the outcome of the
exact `network.get_track(artist, title)` call, and the outcome of
`network.search_for_track(...).get_next_page()`. -/
structure FindEnv where
  getTrack : Except PyExc RemoteTrack
  searchResults : Except PyExc (List RemoteTrack)
deriving DecidableEq, Repr

/-- `fuzzy_match(a, b)` = `fuzz.token_sort_ratio(normalize_cached(a),
normalize_cached(b))`.  The rapidfuzz similarity metric is an external
library, abstracted as the parameter `sim`. -/
def fuzzy_match (sim : String → String → Nat) (a b : String) : Nat :=
  sim (normalize a) (normalize b)

/--
The `for track in results[:10]` loop of `_find`: for each candidate in rank
order, if both the artist and the title similarity reach the threshold,
read its playcount; a successful read accepts the candidate, a `WSError`
read is skipped (`continue`), any other exception propagates.  Falling off
the loop returns `None`. -/
def fuzzyScanLoop (sim : String → String → Nat) (threshold : Nat)
    (artist title : String) : List RemoteTrack → Except PyExc (Option RemoteTrack)
  | [] => Except.ok none
  | c :: rest =>
      if fuzzy_match sim artist c.artist ≥ threshold ∧
          fuzzy_match sim title c.title ≥ threshold then
        match c.playcountResult with
        | Except.ok _ => Except.ok (some c)
        | Except.error e =>
            if e = PyExc.wsError then fuzzyScanLoop sim threshold artist title rest
            else Except.error e
      else fuzzyScanLoop sim threshold artist title rest

/--
The exact-lookup phase of `_find`: `track = network.get_track(artist, title)`
followed by `track.get_userplaycount()` to verify the handle; the first
exception of either call is the phase's failure. -/
def exactPhase (env : FindEnv) : Except PyExc RemoteTrack :=
  match env.getTrack with
  | Except.ok tr =>
      match tr.playcountResult with
      | Except.ok _ => Except.ok tr
      | Except.error e => Except.error e
  | Except.error e => Except.error e

/--
One execution of the `_find` closure (lines 111-140): the exact phase runs
inside `try ... except WSError`; on a `WSError` the fuzzy search runs over the
top 10 ranked results; any non-`WSError` exception propagates out of `_find`. -/
def findOnce (sim : String → String → Nat) (threshold : Nat)
    (artist title : String) (env : FindEnv) : Except PyExc (Option RemoteTrack) :=
  match exactPhase env with
  | Except.ok tr => Except.ok (some tr)
  | Except.error e =>
      if e = PyExc.wsError then
        match env.searchResults with
        | Except.ok results => fuzzyScanLoop sim threshold artist title (results.take 10)
        | Except.error e2 => Except.error e2
      else Except.error e

/--
`find_track(artist, title)` (lines 110-146): run `_find` through
`retry_with_backoff(_find, max_retries=3)` (initial delay 1, factor 2) and
convert any exception that escapes the retry budget into `None`.  `envs i` is
the network environment seen by attempt `i`. -/
def find_track (sim : String → String → Nat) (threshold : Nat)
    (artist title : String) (envs : Nat → FindEnv) : Option RemoteTrack :=
  match (retry_with_backoff (fun i => findOnce sim threshold artist title (envs i)) 3 1 2).result with
  | Except.ok v => v
  | Except.error _ => none

/--
Modelled from the spec's words (§4.3 step 3), for comparison with
`fuzzyScanLoop`: "accept the first candidate where both artist score and
title score meet or exceed the configured fuzzy threshold and its remote
playcount is readable", scanning at most the top 10 ranked candidates. -/
def playcountOk (c : RemoteTrack) : Bool :=
  match c.playcountResult with
  | Except.ok _ => true
  | Except.error _ => false

/-- The spec's acceptance test for one fuzzy candidate: both similarity
scores reach the threshold and the playcount is readable. -/
def specAcceptPred (sim : String → String → Nat) (threshold : Nat)
    (artist title : String) (c : RemoteTrack) : Bool :=
  decide (fuzzy_match sim artist c.artist ≥ threshold) &&
  decide (fuzzy_match sim title c.title ≥ threshold) &&
  playcountOk c

/--
Modelled from the spec's words (§4.3 steps 2-4), for comparison with
`fuzzyScanLoop`: "accept the first candidate where both artist score and
title score meet or exceed the configured fuzzy threshold and its remote
playcount is readable", scanning at most the top 10 ranked candidates. -/
def specFuzzyAccept (sim : String → String → Nat) (threshold : Nat)
    (artist title : String) (cands : List RemoteTrack) : Option RemoteTrack :=
  (cands.take 10).find? (specAcceptPred sim threshold artist title)

/-- A candidate's playcount read either fails with a `WSError` or succeeds. -/
def okOrWs (c : RemoteTrack) : Prop :=
  c.playcountResult = Except.error PyExc.wsError ∨ ∃ n, c.playcountResult = Except.ok n

theorem fuzzyScanLoop_eq_find? (sim : String → String → Nat) (threshold : Nat)
    (artist title : String) :
    ∀ cands : List RemoteTrack, (∀ c ∈ cands, okOrWs c) →
      fuzzyScanLoop sim threshold artist title cands =
        Except.ok (cands.find? (specAcceptPred sim threshold artist title)) := by
  intro cands
  induction cands with
  | nil => intro; rfl
  | cons c rest ih =>
      intro h
      have hc : okOrWs c := h c (List.mem_cons_self c rest)
      have hrest : ∀ x ∈ rest, okOrWs x := fun x hx => h x (List.mem_cons_of_mem c hx)
      by_cases hs : fuzzy_match sim artist c.artist ≥ threshold ∧
          fuzzy_match sim title c.title ≥ threshold
      · rcases hc with hws | ⟨n, hok⟩
        · have hpred : specAcceptPred sim threshold artist title c = false := by
            simp [specAcceptPred, playcountOk, hws]
          rw [fuzzyScanLoop, if_pos hs, hws]
          simp only [List.find?, hpred]
          exact ih hrest
        · have hpred : specAcceptPred sim threshold artist title c = true := by
            simp [specAcceptPred, playcountOk, hok, hs.1, hs.2]
          rw [fuzzyScanLoop, if_pos hs, hok]
          simp only [List.find?, hpred]
      · have hpred : specAcceptPred sim threshold artist title c = false := by
          rcases Decidable.not_and_iff_or_not.mp hs with h1 | h1 <;>
            simp [specAcceptPred, playcountOk, h1]
        rw [fuzzyScanLoop, if_neg hs]
        simp only [List.find?, hpred]
        exact ih hrest

theorem findOnce_of_exact_ok (sim : String → String → Nat) (threshold : Nat)
    (artist title : String) (env : FindEnv) (tr : RemoteTrack)
    (h : exactPhase env = Except.ok tr) :
    findOnce sim threshold artist title env = Except.ok (some tr) := by
  rw [findOnce, h]

theorem findOnce_of_exact_ws (sim : String → String → Nat) (threshold : Nat)
    (artist title : String) (env : FindEnv) (l : List RemoteTrack)
    (hx : exactPhase env = Except.error PyExc.wsError)
    (hs : env.searchResults = Except.ok l) (hws : ∀ c ∈ l.take 10, okOrWs c) :
    findOnce sim threshold artist title env =
      Except.ok (specFuzzyAccept sim threshold artist title l) := by
  have h10 := fuzzyScanLoop_eq_find? sim threshold artist title (l.take 10) hws
  rw [findOnce, hx]
  simp only [hs, h10, specFuzzyAccept]
  simp

theorem find_track_of_first_ok (sim : String → String → Nat) (threshold : Nat)
    (artist title : String) (envs : Nat → FindEnv) (v : Option RemoteTrack)
    (h : findOnce sim threshold artist title (envs 0) = Except.ok v) :
    find_track sim threshold artist title envs = v := by
  rw [find_track, retry_with_backoff, retryLoop]
  simp only [h]

/-- A fuzzy candidate with matching names whose playcount read fails with a
network error (not a `WSError`). -/
def cexBad : RemoteTrack :=
  { artist := "Artist One", title := "Title One",
    playcountResult := Except.error PyExc.requestExc }

/-- The next ranked candidate, equally matching, whose playcount read
succeeds; the spec's rule would accept it. -/
def cexGood : RemoteTrack :=
  { artist := "Artist Two", title := "Title Two", playcountResult := Except.ok 7 }

/-- Environment where the exact lookup fails with a `WSError` and the fuzzy
search returns `cexBad` then `cexGood`. -/
def cexEnv : FindEnv :=
  { getTrack := Except.error PyExc.wsError,
    searchResults := Except.ok [cexBad, cexGood] }

/-- A similarity metric under which every comparison scores 100. -/
def simAll : String → String → Nat := fun _ _ => 100

/--
C4 counterexample: the claim says a candidate whose playcount read fails is
skipped (without aborting) and the next ranked candidate is tried, so on
`cexEnv` the spec's acceptance rule yields `cexGood`.  The code only skips
`WSError` read failures: `cexBad`'s read fails with a network error, which
propagates out of the fuzzy loop into the retry wrapper, and after the retry
budget `find_track` returns `None` without ever accepting `cexGood`.
-/
theorem fuzzy_read_failure_aborts_scan :
    find_track simAll 85 "Some Artist" "Some Title" (fun _ => cexEnv) = none ∧
    specFuzzyAccept simAll 85 "Some Artist" "Some Title" [cexBad, cexGood] =
      some cexGood := by
  exact ⟨by decide, by decide⟩

/--
C4 (amended): exact lookup (with its confirming playcount read) is attempted
first, and its success short-circuits any fuzzy search; the fuzzy search runs
only when the exact phase fails with a `WSError`, examines at most the top 10
ranked candidates in rank order, accepts the first whose artist and title
similarity both reach the threshold and whose playcount read succeeds, skips
candidates whose playcount read fails with a `WSError`, and yields `None`
when no candidate is accepted; a read failure of any other kind aborts the
attempt and is surfaced to the retry wrapper instead of being skipped.
-/
theorem find_track_resolution_behaviour :
    (∀ sim threshold artist title env tr, exactPhase env = Except.ok tr →
      findOnce sim threshold artist title env = Except.ok (some tr)) ∧
    (∀ sim threshold artist title env l,
      exactPhase env = Except.error PyExc.wsError →
      env.searchResults = Except.ok l → (∀ c ∈ l.take 10, okOrWs c) →
      findOnce sim threshold artist title env =
        Except.ok (specFuzzyAccept sim threshold artist title l)) ∧
    (∀ sim threshold artist title env e, exactPhase env = Except.error e →
      e ≠ PyExc.wsError → findOnce sim threshold artist title env = Except.error e) ∧
    (∀ sim threshold artist title env l,
      exactPhase env = Except.error PyExc.wsError →
      env.searchResults = Except.ok l → (∀ c ∈ l.take 10, okOrWs c) →
      find_track sim threshold artist title (fun _ => env) =
        specFuzzyAccept sim threshold artist title l) := by
  refine ⟨findOnce_of_exact_ok, findOnce_of_exact_ws, ?_, ?_⟩
  · intro sim threshold artist title env e hx hne
    rw [findOnce, hx]
    exact if_neg hne
  · intro sim threshold artist title env l hx hs hws
    exact find_track_of_first_ok sim threshold artist title (fun _ => env) _
      (findOnce_of_exact_ws sim threshold artist title env l hx hs hws)

/-- A fuzzy candidate whose playcount read fails with a `WSError` (skipped). -/
def wSkip : RemoteTrack :=
  { artist := "Skipped", title := "Skipped",
    playcountResult := Except.error PyExc.wsError }

/-- A fuzzy candidate whose playcount read succeeds (accepted). -/
def wTaken : RemoteTrack :=
  { artist := "Taken", title := "Taken", playcountResult := Except.ok 3 }

/-- Environment for the C4 witness: exact lookup fails with a `WSError`,
fuzzy search returns a skipped candidate then an accepted one. -/
def wEnv : FindEnv :=
  { getTrack := Except.error PyExc.wsError,
    searchResults := Except.ok [wSkip, wTaken] }

theorem find_track_resolution_behaviour_witness :
    find_track simAll 90 "X" "Y" (fun _ => wEnv) =
      specFuzzyAccept simAll 90 "X" "Y" [wSkip, wTaken] := by
  refine find_track_resolution_behaviour.2.2.2 simAll 90 "X" "Y" wEnv
    [wSkip, wTaken] rfl rfl ?_
  intro c hc
  rw [List.take_of_length_le (by simp)] at hc
  rcases List.mem_pair.mp hc with rfl | rfl
  · exact Or.inl rfl
  · exact Or.inr ⟨3, rfl⟩

/-! ## PlaycountCache (`LASTFM_PLAYCOUNTS`, `get_lastfm_playcount`,
lines 149-169) -/

/-- Cache key: the raw (artist, title) pair, exactly as in the Python dict. -/
abbrev TrackKey := String × String

/-- A value of the `LASTFM_PLAYCOUNTS` dict: either the empty dict `{}`
stored on resolution failure (`noData`), or
`{playcount, scrobbled_this_run_count}`. -/
inductive PCEntry where
  | noData : PCEntry
  | entry (playcount scrobbledThisRun : Nat) : PCEntry
deriving DecidableEq, Repr

/-- The `LASTFM_PLAYCOUNTS` dict, as an insertion-ordered association list. -/
abbrev PCCache := List (TrackKey × PCEntry)

/-- Dictionary lookup `LASTFM_PLAYCOUNTS.get(k)`. -/
def pcFind (cache : PCCache) (k : TrackKey) : Option PCEntry :=
  match cache with
  | [] => none
  | (k2, e) :: rest => if k2 = k then some e else pcFind rest k

/-- Dictionary assignment `LASTFM_PLAYCOUNTS[k] = e`. -/
def pcSet (cache : PCCache) (k : TrackKey) (e : PCEntry) : PCCache :=
  match cache with
  | [] => [(k, e)]
  | (k2, e2) :: rest => if k2 = k then (k, e) :: rest else (k2, e2) :: pcSet rest k e

/--
`get_lastfm_playcount(artist, title)` (lines 150-169).  `resolve` abstracts
the whole first-access resolution (`find_track` plus the
`track.get_userplaycount() or 0` read, with the surrounding
`except Exception`): `none` when the track resolves to `None` or any
exception is raised (the code then stores `{}`), `some pc` on success (the
code stores `{playcount: pc, scrobbled_this_run_count: 0}`).  Returns the
effective playcount (`playcount + scrobbled_this_run_count`, or `none` for a
`{}` entry) together with the updated cache. -/
def pcResolveInto (resolve : Option Nat) (cache : PCCache) (k : TrackKey) : PCCache :=
  match pcFind cache k with
  | some _ => cache
  | none =>
      match resolve with
      | none => pcSet cache k PCEntry.noData
      | some pc => pcSet cache k (PCEntry.entry pc 0)

/-- The return value of `get_lastfm_playcount` (lines 165-169): `None` for a
missing or `{}` entry, else `playcount + scrobbled_this_run_count`. -/
def effectiveOf (cache : PCCache) (k : TrackKey) : Option Nat :=
  match pcFind cache k with
  | some (PCEntry.entry p s) => some (p + s)
  | _ => none

def get_lastfm_playcount (resolve : Option Nat) (cache : PCCache) (k : TrackKey) :
    Option Nat × PCCache :=
  (effectiveOf (pcResolveInto resolve cache k) k, pcResolveInto resolve cache k)

/-! ## ScrobbleEmitter (`scrobble_once`, lines 172-197) -/

/-- Model of `random.randint(lo, hi)`: `seed` is the raw randomness; the
result is guaranteed to lie in `[lo, hi]` (both ends inclusive). -/
def randint (lo hi seed : Nat) : Nat := lo + seed % (hi - lo + 1)

/-- The timestamp computed at line 176:
`int(time.time()) - random.randint(60, 60 * 60 * 24 * 1)`.  It is computed
the same way in dry-run and live mode. -/
def scrobbleTimestamp (now : Int) (seed : Nat) : Int :=
  now - randint 60 (60 * 60 * 24 * 1) seed

/--
The cache-and-network part of `scrobble_once(artist, title, dry_run)`
(lines 179-197).  `emitOutcome` abstracts
`retry_with_backoff(_scrobble, max_retries=5, initial_delay=2)`: `ok` when
the scrobble was submitted within the retry budget, `error e` when the
wrapper re-raised.  Returns the updated cache (or the propagated exception —
on a live failure the re-raise at line 195 skips the increment at line 197;
a missing or `{}` cache entry would make line 197 raise `KeyError`, modelled
as `otherExc`) and the number of times the live network submission path was
entered (0 in dry-run mode). -/
def scrobble_once (dryRun : Bool) (emitOutcome : Except PyExc Unit)
    (cache : PCCache) (k : TrackKey) : Except PyExc PCCache × Nat :=
  if dryRun then
    (match pcFind cache k with
     | some (PCEntry.entry p s) => Except.ok (pcSet cache k (PCEntry.entry p (s + 1)))
     | _ => Except.error PyExc.otherExc, 0)
  else
    match emitOutcome with
    | Except.error e => (Except.error e, 1)
    | Except.ok _ =>
        (match pcFind cache k with
         | some (PCEntry.entry p s) => Except.ok (pcSet cache k (PCEntry.entry p (s + 1)))
         | _ => Except.error PyExc.otherExc, 1)

/-! ## ReconciliationLoop (`main`, lines 340-399) -/

/-- The configuration options read by the loop body. -/
structure Config where
  maxPerTrackPerRun : Nat
  maxPerTrackTotal : Nat
deriving DecidableEq, Repr

/-- One element of the candidate pool: `{artist, title, playcount}` with the
local Navidrome playcount. -/
structure TrackRecord where
  artist : String
  title : String
  playcount : Nat
deriving DecidableEq, Repr

/-- The loop's mutable state: the candidate pool `tracks`, the
`LASTFM_PLAYCOUNTS` cache, the run-wide counter `total_scrobbled`, and (as
instrumentation of the frame effect) the number of times the live network
submission path was entered. -/
structure LoopState where
  tracks : List TrackRecord
  cache : PCCache
  totalScrobbled : Nat
  netWrites : Nat
deriving DecidableEq, Repr

/-- The per-iteration external nondeterminism: the random draw, the
resolution outcome used on a cache miss, and the scrobble-emission outcome. -/
structure StepOracle where
  draw : Nat
  resolve : Option Nat
  emitOutcome : Except PyExc Unit
deriving DecidableEq, Repr

/-- Result of one loop iteration: the two terminal exits of the `while True`
(lines 353-359) or the successor state. -/
inductive StepOut where
  | done (s : LoopState)
  | limitReached (s : LoopState)
  | next (s : LoopState)
deriving DecidableEq, Repr

/-- `max_scrobbles is not None and total_scrobbled >= max_scrobbles`. -/
def hitLimit : Option Nat → Nat → Bool
  | none, _ => false
  | some m, tot => tot ≥ m

/-- The index drawn at line 362: `random.randint(0, len(tracks) - 1)`,
modelled as the raw draw reduced into range. -/
def drawnIdx (o : StepOracle) (s : LoopState) : Nat := o.draw % s.tracks.length

/-- The candidate `t = tracks[idx]` at line 363. -/
def drawnTrack (o : StepOracle) (s : LoopState) : TrackRecord :=
  s.tracks.getD (drawnIdx o s) { artist := "", title := "", playcount := 0 }

/-- The cache key `(artist, title)` of the drawn candidate. -/
def drawnKey (o : StepOracle) (s : LoopState) : TrackKey :=
  ((drawnTrack o s).artist, (drawnTrack o s).title)

/-- `scrobbled_this_run_count` of a key's cache entry (only consulted when
the entry exists and is non-empty). -/
def scrobbledOf (cache : PCCache) (k : TrackKey) : Nat :=
  match pcFind cache k with
  | some (PCEntry.entry _ s) => s
  | _ => 0

/-- The `can_scrobble` elif chain at lines 373-383. -/
def canScrobble (cfg : Config) (ndCount : Nat) (lfCount : Option Nat)
    (scrobbledThisRun : Nat) : Bool :=
  match lfCount with
  | none => false
  | some lf =>
      if lf ≥ ndCount then false
      else if scrobbledThisRun ≥ cfg.maxPerTrackPerRun then false
      else if lf ≥ cfg.maxPerTrackTotal then false
      else true

/--
One iteration of the `while True` loop of `main` (lines 340-399): check the
two exit conditions, draw a candidate, look up its effective Last.fm
playcount (resolving and caching on first access), evaluate the
`can_scrobble` chain, and either scrobble (counting only on success, leaving
the pool unchanged on failure) or `tracks.pop(idx)` the ineligible candidate. -/
def loopStep (cfg : Config) (dryRun : Bool) (maxScrobbles : Option Nat)
    (o : StepOracle) (s : LoopState) : StepOut :=
  if s.tracks.length = 0 then StepOut.done s
  else if hitLimit maxScrobbles s.totalScrobbled then StepOut.limitReached s
  else
    let idx := drawnIdx o s
    let k := drawnKey o s
    let res := get_lastfm_playcount o.resolve s.cache k
    if canScrobble cfg (drawnTrack o s).playcount res.1 (scrobbledOf res.2 k) then
      match scrobble_once dryRun o.emitOutcome res.2 k with
      | (Except.ok cache3, w) =>
          StepOut.next { tracks := s.tracks, cache := cache3,
                         totalScrobbled := s.totalScrobbled + 1,
                         netWrites := s.netWrites + w }
      | (Except.error _, w) =>
          StepOut.next { tracks := s.tracks, cache := res.2,
                         totalScrobbled := s.totalScrobbled,
                         netWrites := s.netWrites + w }
    else
      StepOut.next { tracks := s.tracks.eraseIdx idx, cache := res.2,
                     totalScrobbled := s.totalScrobbled,
                     netWrites := s.netWrites }

/-- Iterate `loopStep` until a terminal exit, with `oracles i` the
nondeterminism of iteration `i` and `fuel` a bound on the number of
iterations (`none` when the fuel runs out first). -/
def runLoop (cfg : Config) (dryRun : Bool) (maxScrobbles : Option Nat)
    (oracles : Nat → StepOracle) : Nat → Nat → LoopState → Option (StepOut) :=
  fun fuel i s =>
    match fuel with
    | 0 => none
    | fuel2 + 1 =>
        match loopStep cfg dryRun maxScrobbles (oracles i) s with
        | StepOut.done s2 => some (StepOut.done s2)
        | StepOut.limitReached s2 => some (StepOut.limitReached s2)
        | StepOut.next s2 => runLoop cfg dryRun maxScrobbles oracles fuel2 (i + 1) s2

/-! ## Cache lemmas -/

theorem pcFind_pcSet_self (c : PCCache) (k : TrackKey) (e : PCEntry) :
    pcFind (pcSet c k e) k = some e := by
  induction c with
  | nil => simp [pcFind, pcSet]
  | cons hd tl ih =>
      by_cases h : hd.1 = k
      · simp [pcFind, pcSet, h]
      · simp only [pcSet, pcFind]
        rw [if_neg h, pcFind, if_neg h]
        exact ih

theorem pcFind_pcSet_ne (c : PCCache) (k q : TrackKey) (e : PCEntry)
    (h : q ≠ k) : pcFind (pcSet c k e) q = pcFind c q := by
  have hkq : ¬(k = q) := fun h2 => h h2.symm
  induction c with
  | nil => simp [pcFind, pcSet, hkq]
  | cons hd tl ih =>
      by_cases h2 : hd.1 = k
      · simp only [pcSet, if_pos h2, pcFind]
        rw [if_neg hkq, if_neg (h2 ▸ hkq)]
      · simp only [pcSet, if_neg h2, pcFind]
        by_cases h3 : hd.1 = q
        · rw [if_pos h3, if_pos h3]
        · rw [if_neg h3, if_neg h3]
          exact ih

theorem get_lastfm_playcount_of_entry (resolve : Option Nat) (cache : PCCache)
    (k : TrackKey) (p s : Nat) (h : pcFind cache k = some (PCEntry.entry p s)) :
    get_lastfm_playcount resolve cache k = (some (p + s), cache) := by
  simp only [get_lastfm_playcount, pcResolveInto, effectiveOf, h]

theorem effectiveOf_some (cache : PCCache) (k : TrackKey) (v : Nat)
    (h : effectiveOf cache k = some v) :
    ∃ p s, pcFind cache k = some (PCEntry.entry p s) ∧ v = p + s := by
  rw [effectiveOf] at h
  cases hm : pcFind cache k with
  | none => rw [hm] at h; cases h
  | some e =>
      cases e with
      | noData => rw [hm] at h; cases h
      | entry p s =>
          rw [hm] at h
          exact ⟨p, s, rfl, (Option.some_injective _ h).symm⟩

/-! ## Eligibility -/

/--
Modelled from the spec's words (§4.6 step 5), for comparison with
`canScrobble`: eligibility is false exactly when the lookup returned no
remote data, or the effective remote count is at least the local count, or
the per-track-per-run cap is already met, or the effective remote count is at
least the per-track lifetime cap. -/
def ineligibleSpec (cfg : Config) (ndCount : Nat) (lfCount : Option Nat)
    (scr : Nat) : Prop :=
  lfCount = none ∨
  (∃ v, lfCount = some v ∧ ndCount ≤ v) ∨
  cfg.maxPerTrackPerRun ≤ scr ∨
  (∃ v, lfCount = some v ∧ cfg.maxPerTrackTotal ≤ v)

theorem canScrobble_false_iff (cfg : Config) (nd : Nat) (lf : Option Nat)
    (scr : Nat) : canScrobble cfg nd lf scr = false ↔ ineligibleSpec cfg nd lf scr := by
  cases lf with
  | none => simp [canScrobble, ineligibleSpec]
  | some v =>
      simp only [canScrobble, ineligibleSpec]
      constructor
      · intro h
        by_cases h1 : v ≥ nd
        · exact Or.inr (Or.inl ⟨v, rfl, h1⟩)
        by_cases h2 : scr ≥ cfg.maxPerTrackPerRun
        · exact Or.inr (Or.inr (Or.inl h2))
        by_cases h3 : v ≥ cfg.maxPerTrackTotal
        · exact Or.inr (Or.inr (Or.inr ⟨v, rfl, h3⟩))
        · rw [if_neg h1, if_neg h2, if_neg h3] at h
          cases h
      · intro h
        rcases h with h | ⟨w, hw, hge⟩ | h | ⟨w, hw, hge⟩
        · cases h
        · rw [Option.some.injEq] at hw
          subst hw
          rw [if_pos hge]
        · by_cases h1 : v ≥ nd
          · rw [if_pos h1]
          · rw [if_neg h1, if_pos h]
        · rw [Option.some.injEq] at hw
          subst hw
          by_cases h1 : v ≥ nd
          · rw [if_pos h1]
          · rw [if_neg h1]
            by_cases h2 : scr ≥ cfg.maxPerTrackPerRun
            · rw [if_pos h2]
            · rw [if_neg h2, if_pos hge]

/-! ## Loop-step branch lemmas -/

theorem loopStep_skip (cfg : Config) (dryRun : Bool) (m : Option Nat)
    (o : StepOracle) (s : LoopState)
    (h0 : ¬s.tracks.length = 0) (hl : hitLimit m s.totalScrobbled = false)
    (hc : canScrobble cfg (drawnTrack o s).playcount
        (get_lastfm_playcount o.resolve s.cache (drawnKey o s)).1
        (scrobbledOf (get_lastfm_playcount o.resolve s.cache (drawnKey o s)).2
          (drawnKey o s)) = false) :
    loopStep cfg dryRun m o s =
      StepOut.next { tracks := s.tracks.eraseIdx (drawnIdx o s),
                     cache := (get_lastfm_playcount o.resolve s.cache (drawnKey o s)).2,
                     totalScrobbled := s.totalScrobbled,
                     netWrites := s.netWrites } := by
  rw [loopStep, if_neg h0, if_neg (by rw [hl]; exact Bool.false_ne_true)]
  simp only [hc]
  rfl

theorem loopStep_scrobble_ok (cfg : Config) (dryRun : Bool) (m : Option Nat)
    (o : StepOracle) (s : LoopState) (cache3 : PCCache) (w : Nat)
    (h0 : ¬s.tracks.length = 0) (hl : hitLimit m s.totalScrobbled = false)
    (hc : canScrobble cfg (drawnTrack o s).playcount
        (get_lastfm_playcount o.resolve s.cache (drawnKey o s)).1
        (scrobbledOf (get_lastfm_playcount o.resolve s.cache (drawnKey o s)).2
          (drawnKey o s)) = true)
    (hm : scrobble_once dryRun o.emitOutcome
        (get_lastfm_playcount o.resolve s.cache (drawnKey o s)).2 (drawnKey o s) =
        (Except.ok cache3, w)) :
    loopStep cfg dryRun m o s =
      StepOut.next { tracks := s.tracks, cache := cache3,
                     totalScrobbled := s.totalScrobbled + 1,
                     netWrites := s.netWrites + w } := by
  rw [loopStep, if_neg h0, if_neg (by rw [hl]; exact Bool.false_ne_true)]
  simp only [hc, hm]
  rfl

theorem loopStep_scrobble_err (cfg : Config) (dryRun : Bool) (m : Option Nat)
    (o : StepOracle) (s : LoopState) (e : PyExc) (w : Nat)
    (h0 : ¬s.tracks.length = 0) (hl : hitLimit m s.totalScrobbled = false)
    (hc : canScrobble cfg (drawnTrack o s).playcount
        (get_lastfm_playcount o.resolve s.cache (drawnKey o s)).1
        (scrobbledOf (get_lastfm_playcount o.resolve s.cache (drawnKey o s)).2
          (drawnKey o s)) = true)
    (hm : scrobble_once dryRun o.emitOutcome
        (get_lastfm_playcount o.resolve s.cache (drawnKey o s)).2 (drawnKey o s) =
        (Except.error e, w)) :
    loopStep cfg dryRun m o s =
      StepOut.next { tracks := s.tracks,
                     cache := (get_lastfm_playcount o.resolve s.cache (drawnKey o s)).2,
                     totalScrobbled := s.totalScrobbled,
                     netWrites := s.netWrites + w } := by
  rw [loopStep, if_neg h0, if_neg (by rw [hl]; exact Bool.false_ne_true)]
  simp only [hc, hm]
  rfl

/--
C3: for every candidate drawn by the loop, the `can_scrobble` chain is false
exactly when the spec's disjunction holds (no remote data, remote effective
count at least the local count, per-run cap met, or lifetime cap met), and
every ineligible candidate is removed from the pool by `tracks.pop(idx)` with
no scrobble emitted and no counter changed in that step. -/
theorem ineligible_iff_spec_and_removed :
    (∀ cfg nd lf scr, canScrobble cfg nd lf scr = false ↔ ineligibleSpec cfg nd lf scr) ∧
    (∀ cfg dryRun m o s, ¬(s : LoopState).tracks.length = 0 →
      hitLimit m s.totalScrobbled = false →
      canScrobble cfg (drawnTrack o s).playcount
        (get_lastfm_playcount o.resolve s.cache (drawnKey o s)).1
        (scrobbledOf (get_lastfm_playcount o.resolve s.cache (drawnKey o s)).2
          (drawnKey o s)) = false →
      loopStep cfg dryRun m o s =
        StepOut.next { tracks := s.tracks.eraseIdx (drawnIdx o s),
                       cache := (get_lastfm_playcount o.resolve s.cache (drawnKey o s)).2,
                       totalScrobbled := s.totalScrobbled,
                       netWrites := s.netWrites }) :=
  ⟨canScrobble_false_iff, loopStep_skip⟩

/-- Configuration used by the concrete witnesses: per-track-per-run cap 3,
lifetime cap 100. -/
def cfgW : Config := { maxPerTrackPerRun := 3, maxPerTrackTotal := 100 }

/-- Pool state for the C3 witness: one local track with 5 local plays whose
remote count 7 already exceeds it. -/
def s3w : LoopState :=
  { tracks := [{ artist := "a", title := "b", playcount := 5 }],
    cache := [(("a", "b"), PCEntry.entry 7 0)],
    totalScrobbled := 0, netWrites := 0 }

/-- Oracle for the C3 witness. -/
def o3w : StepOracle :=
  { draw := 0, resolve := none, emitOutcome := Except.ok () }

theorem ineligible_iff_spec_and_removed_witness :
    loopStep cfgW true none o3w s3w =
      StepOut.next { tracks := s3w.tracks.eraseIdx (drawnIdx o3w s3w),
                     cache := (get_lastfm_playcount o3w.resolve s3w.cache (drawnKey o3w s3w)).2,
                     totalScrobbled := s3w.totalScrobbled,
                     netWrites := s3w.netWrites } :=
  ineligible_iff_spec_and_removed.2 cfgW true none o3w s3w
    (by decide) (by decide) (by decide)

/-! ## Scrobble bookkeeping lemmas -/

theorem scrobble_once_entry (dryRun : Bool) (emit : Except PyExc Unit)
    (c : PCCache) (k : TrackKey) (c3 : PCCache) (w : Nat)
    (h : scrobble_once dryRun emit c k = (Except.ok c3, w)) :
    ∃ p s, pcFind c k = some (PCEntry.entry p s) ∧
      c3 = pcSet c k (PCEntry.entry p (s + 1)) := by
  rw [scrobble_once.eq_def] at h
  cases dryRun with
  | true =>
      rw [if_pos rfl] at h
      cases hm : pcFind c k with
      | none => rw [hm] at h; cases congrArg Prod.fst h
      | some e =>
          cases e with
          | noData => rw [hm] at h; cases congrArg Prod.fst h
          | entry p s =>
              rw [hm] at h
              have h4 := congrArg Prod.fst h
              injection h4 with h5
              exact ⟨p, s, rfl, h5.symm⟩
  | false =>
      rw [if_neg Bool.false_ne_true] at h
      cases emit with
      | error e => cases congrArg Prod.fst h
      | ok u =>
          cases hm : pcFind c k with
          | none => rw [hm] at h; cases congrArg Prod.fst h
          | some e =>
              cases e with
              | noData => rw [hm] at h; cases congrArg Prod.fst h
              | entry p s =>
                  rw [hm] at h
                  have h4 := congrArg Prod.fst h
                  injection h4 with h5
                  exact ⟨p, s, rfl, h5.symm⟩

theorem scrobble_once_bump (dryRun : Bool) (c : PCCache) (k : TrackKey) (p s : Nat)
    (h : pcFind c k = some (PCEntry.entry p s)) :
    (scrobble_once dryRun (Except.ok ()) c k).1 =
      Except.ok (pcSet c k (PCEntry.entry p (s + 1))) := by
  cases dryRun <;> simp [scrobble_once, h]

/-- `N` consecutive successful `recordScrobble` operations for key `k`
(each one a successful `scrobble_once`, incrementing
`scrobbled_this_run_count`). -/
def recordN (dryRun : Bool) : Nat → PCCache → TrackKey → PCCache
  | 0, cache, _ => cache
  | n + 1, cache, k =>
      match (scrobble_once dryRun (Except.ok ()) cache k).1 with
      | Except.ok c2 => recordN dryRun n c2 k
      | Except.error _ => cache

theorem recordN_entry (dryRun : Bool) (k : TrackKey) (p : Nat) :
    ∀ (n : Nat) (c : PCCache) (s : Nat),
      pcFind c k = some (PCEntry.entry p s) →
      pcFind (recordN dryRun n c k) k = some (PCEntry.entry p (s + n)) := by
  intro n
  induction n with
  | zero => intro c s h; rw [recordN, Nat.add_zero]; exact h
  | succ n ih =>
      intro c s h
      rw [recordN, scrobble_once_bump dryRun c k p s h]
      have h2 := ih (pcSet c k (PCEntry.entry p (s + 1))) (s + 1)
        (pcFind_pcSet_self c k (PCEntry.entry p (s + 1)))
      rw [show s + 1 + n = s + (n + 1) from by omega] at h2
      exact h2

/-- The §3 invariant: every non-empty cache entry has
`scrobbled_this_run_count` at most the per-track-per-run cap. -/
def capInv (cap : Nat) (cache : PCCache) : Prop :=
  ∀ k p s, pcFind cache k = some (PCEntry.entry p s) → s ≤ cap

theorem pcResolveInto_capInv (cap : Nat) (r : Option Nat) (c : PCCache)
    (k : TrackKey) (h : capInv cap c) : capInv cap (pcResolveInto r c k) := by
  rw [pcResolveInto.eq_def]
  cases hm : pcFind c k with
  | some e => exact h
  | none =>
      cases r with
      | none =>
          intro q p s hq
          by_cases hqk : q = k
          · subst hqk
            rw [pcFind_pcSet_self] at hq
            cases hq
          · rw [pcFind_pcSet_ne c k q _ hqk] at hq
            exact h q p s hq
      | some pc =>
          intro q p s hq
          by_cases hqk : q = k
          · subst hqk
            rw [pcFind_pcSet_self] at hq
            injection hq with h3
            cases h3
            exact Nat.zero_le cap
          · rw [pcFind_pcSet_ne c k q _ hqk] at hq
            exact h q p s hq

theorem canScrobble_true_scr_lt (cfg : Config) (nd : Nat) (lf : Option Nat)
    (scr : Nat) (h : canScrobble cfg nd lf scr = true) :
    scr < cfg.maxPerTrackPerRun := by
  cases lf with
  | none => cases h
  | some v =>
      rw [canScrobble] at h
      split_ifs at h with h1 h2 h3
      omega

theorem scrobbledOf_of_entry (c : PCCache) (k : TrackKey) (p s : Nat)
    (h : pcFind c k = some (PCEntry.entry p s)) : scrobbledOf c k = s := by
  rw [scrobbledOf, h]

theorem loopStep_capInv (cfg : Config) (dryRun : Bool) (m : Option Nat)
    (o : StepOracle) (s : LoopState) (s2 : LoopState)
    (hinv : capInv cfg.maxPerTrackPerRun s.cache)
    (hstep : loopStep cfg dryRun m o s = StepOut.next s2) :
    capInv cfg.maxPerTrackPerRun s2.cache := by
  by_cases h0 : s.tracks.length = 0
  · rw [loopStep, if_pos h0] at hstep
    cases hstep
  by_cases hl : hitLimit m s.totalScrobbled = true
  · rw [loopStep, if_neg h0, if_pos hl] at hstep
    cases hstep
  have hl2 : hitLimit m s.totalScrobbled = false := Bool.not_eq_true _ ▸ hl
  have hres : capInv cfg.maxPerTrackPerRun
      (get_lastfm_playcount o.resolve s.cache (drawnKey o s)).2 :=
    pcResolveInto_capInv _ _ _ _ hinv
  by_cases hc : canScrobble cfg (drawnTrack o s).playcount
      (get_lastfm_playcount o.resolve s.cache (drawnKey o s)).1
      (scrobbledOf (get_lastfm_playcount o.resolve s.cache (drawnKey o s)).2
        (drawnKey o s)) = true
  · rcases hsc : scrobble_once dryRun o.emitOutcome
        (get_lastfm_playcount o.resolve s.cache (drawnKey o s)).2 (drawnKey o s) with ⟨r, w⟩
    cases r with
    | error e =>
        rw [loopStep_scrobble_err cfg dryRun m o s e w h0 hl2 hc hsc] at hstep
        injection hstep with h2
        subst h2
        exact hres
    | ok c3 =>
        rw [loopStep_scrobble_ok cfg dryRun m o s c3 w h0 hl2 hc hsc] at hstep
        injection hstep with h2
        subst h2
        rcases scrobble_once_entry dryRun o.emitOutcome _ _ _ _ hsc with ⟨p, sc, hf, hc3⟩
        have hlt : sc < cfg.maxPerTrackPerRun := by
          have := canScrobble_true_scr_lt cfg (drawnTrack o s).playcount
            (get_lastfm_playcount o.resolve s.cache (drawnKey o s)).1
            (scrobbledOf (get_lastfm_playcount o.resolve s.cache (drawnKey o s)).2
              (drawnKey o s)) hc
          rwa [scrobbledOf_of_entry _ _ _ _ hf] at this
        intro q p2 s2b hq
        rw [hc3] at hq
        by_cases hqk : q = drawnKey o s
        · subst hqk
          rw [pcFind_pcSet_self] at hq
          injection hq with h3
          cases h3
          omega
        · rw [pcFind_pcSet_ne _ _ _ _ hqk] at hq
          exact hres q p2 s2b hq
  · have hc2 : canScrobble cfg (drawnTrack o s).playcount
        (get_lastfm_playcount o.resolve s.cache (drawnKey o s)).1
        (scrobbledOf (get_lastfm_playcount o.resolve s.cache (drawnKey o s)).2
          (drawnKey o s)) = false := Bool.not_eq_true _ ▸ hc
    rw [loopStep_skip cfg dryRun m o s h0 hl2 hc2] at hstep
    injection hstep with h2
    subst h2
    exact hres

/--
C5: for every key with a non-empty cache entry, `get_lastfm_playcount`
returns `playcount + scrobbled_this_run_count`; after `N` successful
`recordScrobble` operations starting from `{playcount: p,
scrobbled_this_run_count: 0}` it returns exactly `p + N` (for every `N`,
hence in particular for `N` within the caps); and under the loop's
eligibility gating, `scrobbled_this_run_count` never exceeds the
per-track-per-run cap (the invariant is preserved by every loop step). -/
theorem effective_playcount_invariant :
    (∀ resolve cache k p s, pcFind cache k = some (PCEntry.entry p s) →
      (get_lastfm_playcount resolve cache k).1 = some (p + s)) ∧
    (∀ resolve dryRun n cache k p, pcFind cache k = some (PCEntry.entry p 0) →
      (get_lastfm_playcount resolve (recordN dryRun n cache k) k).1 = some (p + n)) ∧
    (∀ cfg dryRun m o s s2, capInv (cfg : Config).maxPerTrackPerRun (s : LoopState).cache →
      loopStep cfg dryRun m o s = StepOut.next s2 →
      capInv cfg.maxPerTrackPerRun s2.cache) := by
  refine ⟨?_, ?_, loopStep_capInv⟩
  · intro resolve cache k p s h
    rw [get_lastfm_playcount_of_entry resolve cache k p s h]
  · intro resolve dryRun n cache k p h
    have h2 := recordN_entry dryRun k p n cache 0 h
    rw [Nat.zero_add] at h2
    rw [get_lastfm_playcount_of_entry resolve _ k p n h2]

/-- Cache for the C5 witness: remote playcount 7, nothing scrobbled yet. -/
def c5cache : PCCache := [(("a", "b"), PCEntry.entry 7 0)]

theorem effective_playcount_invariant_witness :
    (get_lastfm_playcount none (recordN true 3 c5cache ("a", "b")) ("a", "b")).1 =
      some (7 + 3) :=
  effective_playcount_invariant.2.1 none true 3 c5cache ("a", "b") 7 (by decide)

/-! ## Resolution failure handling (C6) -/

theorem get_lastfm_playcount_of_missing (cache : PCCache) (k : TrackKey)
    (h : pcFind cache k = none) :
    get_lastfm_playcount none cache k = (none, pcSet cache k PCEntry.noData) := by
  have hc2 : pcResolveInto none cache k = pcSet cache k PCEntry.noData := by
    rw [pcResolveInto.eq_def, h]
  rw [get_lastfm_playcount, hc2]
  have he : effectiveOf (pcSet cache k PCEntry.noData) k = none := by
    rw [effectiveOf.eq_def, pcFind_pcSet_self]
  rw [he]

theorem retryLoop_all_error (op : Nat → Except PyExc α) (maxRetries bf : Nat)
    (hall : ∀ i, ∃ e, op i = Except.error e) :
    ∀ fuel attempt delay lastExc sleeps,
      ∃ e, (retryLoop op maxRetries bf attempt fuel delay lastExc sleeps).result =
        Except.error e := by
  intro fuel
  induction fuel with
  | zero => intro attempt delay lastExc sleeps; exact ⟨_, rfl⟩
  | succ fuel ih =>
      intro attempt delay lastExc sleeps
      obtain ⟨e, he⟩ := hall attempt
      rw [retryLoop, he]
      cases e with
      | requestExc =>
          show ∃ e2, (if attempt < maxRetries - 1 then
              retryLoop op maxRetries bf (attempt + 1) fuel (delay * bf)
                (some PyExc.requestExc) (delay :: sleeps)
            else
              retryLoop op maxRetries bf (attempt + 1) fuel delay
                (some PyExc.requestExc) sleeps).result = Except.error e2
          by_cases hlt : attempt < maxRetries - 1
          · rw [if_pos hlt]; exact ih _ _ _ _
          · rw [if_neg hlt]; exact ih _ _ _ _
      | wsError =>
          show ∃ e2, (if attempt < maxRetries - 1 then
              retryLoop op maxRetries bf (attempt + 1) fuel (delay * bf)
                (some PyExc.wsError) (delay :: sleeps)
            else
              retryLoop op maxRetries bf (attempt + 1) fuel delay
                (some PyExc.wsError) sleeps).result = Except.error e2
          by_cases hlt : attempt < maxRetries - 1
          · rw [if_pos hlt]; exact ih _ _ _ _
          · rw [if_neg hlt]; exact ih _ _ _ _
      | httpError st ra =>
          show ∃ e2, (if attempt < maxRetries - 1 then
              retryLoop op maxRetries bf (attempt + 1) fuel (delay * bf)
                (some (PyExc.httpError st ra)) (delay :: sleeps)
            else
              retryLoop op maxRetries bf (attempt + 1) fuel delay
                (some (PyExc.httpError st ra)) sleeps).result = Except.error e2
          by_cases hlt : attempt < maxRetries - 1
          · rw [if_pos hlt]; exact ih _ _ _ _
          · rw [if_neg hlt]; exact ih _ _ _ _
      | otherExc => exact ⟨PyExc.otherExc, rfl⟩

theorem find_track_none_of_all_error (sim : String → String → Nat) (threshold : Nat)
    (artist title : String) (envs : Nat → FindEnv)
    (hall : ∀ i, ∃ e, findOnce sim threshold artist title (envs i) = Except.error e) :
    find_track sim threshold artist title envs = none := by
  obtain ⟨e, he⟩ := retryLoop_all_error
    (fun i => findOnce sim threshold artist title (envs i)) 3 2 hall 3 0 1 none []
  rw [find_track, retry_with_backoff, he]

/--
C6: when resolution fails unrecoverably — every retry attempt of `_find`
raises (a non-retryable error aborts at once, exhausted retries surface the
last failure) — `find_track` returns `None` rather than letting the failure
escape; the cache layer then stores the empty entry `{}` for the key and
reports no remote data; and the loop step treats the track as ineligible,
removes it from the pool, and continues to the next state with no counter
changed — the failure never escalates past the step. -/
theorem resolve_failure_skipped_not_fatal :
    (∀ sim threshold artist title envs,
      (∀ i, ∃ e, findOnce sim threshold artist title (envs i) = Except.error e) →
      find_track sim threshold artist title envs = none) ∧
    (∀ cache k, pcFind cache k = none →
      get_lastfm_playcount none cache k = (none, pcSet cache k PCEntry.noData)) ∧
    (∀ cfg dryRun m o s, ¬(s : LoopState).tracks.length = 0 →
      hitLimit m s.totalScrobbled = false →
      (o : StepOracle).resolve = none → pcFind s.cache (drawnKey o s) = none →
      loopStep cfg dryRun m o s =
        StepOut.next { tracks := s.tracks.eraseIdx (drawnIdx o s),
                       cache := pcSet s.cache (drawnKey o s) PCEntry.noData,
                       totalScrobbled := s.totalScrobbled,
                       netWrites := s.netWrites }) := by
  refine ⟨find_track_none_of_all_error, get_lastfm_playcount_of_missing, ?_⟩
  intro cfg dryRun m o s h0 hl hr hnone
  have hget := get_lastfm_playcount_of_missing s.cache (drawnKey o s) hnone
  have hc : canScrobble cfg (drawnTrack o s).playcount
      (get_lastfm_playcount o.resolve s.cache (drawnKey o s)).1
      (scrobbledOf (get_lastfm_playcount o.resolve s.cache (drawnKey o s)).2
        (drawnKey o s)) = false := by
    rw [hr, hget]
    rfl
  have h2 := loopStep_skip cfg dryRun m o s h0 hl hc
  rw [hr, hget] at h2
  exact h2

/-- Pool state for the C6 witness: one candidate, no cache entry. -/
def s6w : LoopState :=
  { tracks := [{ artist := "x", title := "y", playcount := 4 }],
    cache := [], totalScrobbled := 0, netWrites := 0 }

/-- Oracle for the C6 witness: resolution fails. -/
def o6w : StepOracle :=
  { draw := 0, resolve := none, emitOutcome := Except.ok () }

theorem resolve_failure_skipped_not_fatal_witness :
    loopStep cfgW false none o6w s6w =
      StepOut.next { tracks := s6w.tracks.eraseIdx (drawnIdx o6w s6w),
                     cache := pcSet s6w.cache (drawnKey o6w s6w) PCEntry.noData,
                     totalScrobbled := s6w.totalScrobbled,
                     netWrites := s6w.netWrites } :=
  resolve_failure_skipped_not_fatal.2.2 cfgW false none o6w s6w
    (by decide) (by decide) (by decide) (by decide)

/-! ## Emission failure handling (C7) -/

theorem scrobble_once_live_error (e : PyExc) (cache : PCCache) (k : TrackKey) :
    scrobble_once false (Except.error e) cache k = (Except.error e, 1) := rfl

/--
C7: a live scrobble emission that fails after its retries surfaces the
exception with the cache untouched (`scrobble_once` re-raises before the
increment at line 197), and the loop then keeps the candidate in the pool,
increments neither the cache's per-track count nor the run-wide counter, and
continues as `next` rather than aborting; when the key was already cached,
the whole cache is left exactly as it was. -/
theorem emission_failure_leaves_state :
    (∀ e cache k, scrobble_once false (Except.error e) cache k = (Except.error e, 1)) ∧
    (∀ resolve cache k p s, pcFind cache k = some (PCEntry.entry p s) →
      (get_lastfm_playcount resolve cache k).2 = cache) ∧
    (∀ cfg m o s e, ¬(s : LoopState).tracks.length = 0 →
      hitLimit m s.totalScrobbled = false →
      (o : StepOracle).emitOutcome = Except.error e →
      canScrobble cfg (drawnTrack o s).playcount
        (get_lastfm_playcount o.resolve s.cache (drawnKey o s)).1
        (scrobbledOf (get_lastfm_playcount o.resolve s.cache (drawnKey o s)).2
          (drawnKey o s)) = true →
      loopStep cfg false m o s =
        StepOut.next { tracks := s.tracks,
                       cache := (get_lastfm_playcount o.resolve s.cache (drawnKey o s)).2,
                       totalScrobbled := s.totalScrobbled,
                       netWrites := s.netWrites + 1 }) := by
  refine ⟨scrobble_once_live_error, ?_, ?_⟩
  · intro resolve cache k p s h
    rw [get_lastfm_playcount_of_entry resolve cache k p s h]
  · intro cfg m o s e h0 hl hemit hc
    have hm : scrobble_once false o.emitOutcome
        (get_lastfm_playcount o.resolve s.cache (drawnKey o s)).2 (drawnKey o s) =
        (Except.error e, 1) := by
      rw [hemit]
      exact scrobble_once_live_error e _ _
    exact loopStep_scrobble_err cfg false m o s e 1 h0 hl hc hm

/-- Pool state for the C7 witness: one eligible candidate already cached
(remote 2, local 9, nothing scrobbled yet). -/
def s7w : LoopState :=
  { tracks := [{ artist := "x", title := "y", playcount := 9 }],
    cache := [(("x", "y"), PCEntry.entry 2 0)],
    totalScrobbled := 0, netWrites := 0 }

/-- Oracle for the C7 witness: the live emission fails after retries. -/
def o7w : StepOracle :=
  { draw := 0, resolve := none, emitOutcome := Except.error PyExc.requestExc }

theorem emission_failure_leaves_state_witness :
    loopStep cfgW false none o7w s7w =
      StepOut.next { tracks := s7w.tracks,
                     cache := (get_lastfm_playcount o7w.resolve s7w.cache (drawnKey o7w s7w)).2,
                     totalScrobbled := s7w.totalScrobbled,
                     netWrites := s7w.netWrites + 1 } :=
  emission_failure_leaves_state.2.2 cfgW none o7w s7w PyExc.requestExc
    (by decide) (by decide) (by decide) (by decide)

/-! ## Termination of the reconciliation loop (C8) -/

theorem get_fst_some (r : Option Nat) (c : PCCache) (k : TrackKey) (v : Nat)
    (h : (get_lastfm_playcount r c k).1 = some v) :
    ∃ p s, pcFind (get_lastfm_playcount r c k).2 k = some (PCEntry.entry p s) ∧
      v = p + s :=
  effectiveOf_some (pcResolveInto r c k) k v h

theorem loopStep_next_facts (cfg : Config) (dryRun : Bool) (m : Option Nat)
    (o : StepOracle) (s s2 : LoopState)
    (hstep : loopStep cfg dryRun m o s = StepOut.next s2) :
    ¬s.tracks.length = 0 ∧ hitLimit m s.totalScrobbled = false := by
  by_cases h0 : s.tracks.length = 0
  · rw [loopStep, if_pos h0] at hstep
    cases hstep
  by_cases hl : hitLimit m s.totalScrobbled = true
  · rw [loopStep, if_neg h0, if_pos hl] at hstep
    cases hstep
  exact ⟨h0, Bool.not_eq_true _ ▸ hl⟩

theorem loopStep_next_shape (cfg : Config) (dryRun : Bool) (m : Option Nat)
    (o : StepOracle) (s s2 : LoopState)
    (hok : o.emitOutcome = Except.ok ())
    (hstep : loopStep cfg dryRun m o s = StepOut.next s2) :
    (s2.tracks = s.tracks.eraseIdx (drawnIdx o s) ∧
      drawnIdx o s < s.tracks.length ∧ s2.totalScrobbled = s.totalScrobbled) ∨
    (s2.tracks = s.tracks ∧ s2.totalScrobbled = s.totalScrobbled + 1) := by
  obtain ⟨h0, hl⟩ := loopStep_next_facts cfg dryRun m o s s2 hstep
  have hidx : drawnIdx o s < s.tracks.length :=
    Nat.mod_lt _ (Nat.pos_of_ne_zero h0)
  by_cases hc : canScrobble cfg (drawnTrack o s).playcount
      (get_lastfm_playcount o.resolve s.cache (drawnKey o s)).1
      (scrobbledOf (get_lastfm_playcount o.resolve s.cache (drawnKey o s)).2
        (drawnKey o s)) = true
  · cases hres : (get_lastfm_playcount o.resolve s.cache (drawnKey o s)).1 with
    | none => rw [hres] at hc; cases hc
    | some v =>
        obtain ⟨p, sc, hf, hv⟩ := get_fst_some o.resolve s.cache (drawnKey o s) v hres
        have hbump := scrobble_once_bump dryRun
          (get_lastfm_playcount o.resolve s.cache (drawnKey o s)).2 (drawnKey o s) p sc hf
        rcases hsc : scrobble_once dryRun o.emitOutcome
            (get_lastfm_playcount o.resolve s.cache (drawnKey o s)).2 (drawnKey o s)
          with ⟨r, w⟩
        have hr : r = Except.ok
            (pcSet (get_lastfm_playcount o.resolve s.cache (drawnKey o s)).2
              (drawnKey o s) (PCEntry.entry p (sc + 1))) := by
          have h1 := congrArg Prod.fst hsc
          rw [hok, hbump] at h1
          exact h1.symm
        subst hr
        rw [loopStep_scrobble_ok cfg dryRun m o s _ w h0 hl hc hsc] at hstep
        injection hstep with h2
        subst h2
        exact Or.inr ⟨rfl, rfl⟩
  · have hc2 : canScrobble cfg (drawnTrack o s).playcount
        (get_lastfm_playcount o.resolve s.cache (drawnKey o s)).1
        (scrobbledOf (get_lastfm_playcount o.resolve s.cache (drawnKey o s)).2
          (drawnKey o s)) = false := Bool.not_eq_true _ ▸ hc
    rw [loopStep_skip cfg dryRun m o s h0 hl hc2] at hstep
    injection hstep with h2
    subst h2
    exact Or.inl ⟨rfl, hidx, rfl⟩

theorem loopStep_next_measure (cfg : Config) (dryRun : Bool) (cap : Nat)
    (o : StepOracle) (s s2 : LoopState)
    (hok : o.emitOutcome = Except.ok ())
    (hstep : loopStep cfg dryRun (some cap) o s = StepOut.next s2) :
    s2.tracks.length + (cap - s2.totalScrobbled) <
      s.tracks.length + (cap - s.totalScrobbled) := by
  obtain ⟨h0, hl⟩ := loopStep_next_facts cfg dryRun (some cap) o s s2 hstep
  have hcap : ¬s.totalScrobbled ≥ cap := by
    simpa [hitLimit] using hl
  rcases loopStep_next_shape cfg dryRun (some cap) o s s2 hok hstep with
    ⟨he, hidx, htot⟩ | ⟨he, htot⟩
  · have hlen : s2.tracks.length + 1 = s.tracks.length := by
      rw [he]
      exact List.length_eraseIdx_add_one hidx
    omega
  · have hlen : s2.tracks.length = s.tracks.length := by rw [he]
    omega

theorem runLoop_terminates (cfg : Config) (dryRun : Bool) (cap : Nat)
    (oracles : Nat → StepOracle)
    (hok : ∀ j, (oracles j).emitOutcome = Except.ok ()) :
    ∀ fuel i s, (s : LoopState).tracks.length + (cap - s.totalScrobbled) < fuel →
      (runLoop cfg dryRun (some cap) oracles fuel i s).isSome = true := by
  intro fuel
  induction fuel with
  | zero => intro i s hm; omega
  | succ fuel ih =>
      intro i s hm
      rw [runLoop]
      cases hstep : loopStep cfg dryRun (some cap) (oracles i) s with
      | done s2 => rfl
      | limitReached s2 => rfl
      | next s2 =>
          apply ih
          have := loopStep_next_measure cfg dryRun cap (oracles i) s s2 (hok i) hstep
          omega

/--
C8: when every emission succeeds and a run-wide cap is configured, the loop
reaches a terminal state (`Done` or `LimitReached`) within
`poolSize + runWideCap` non-terminal steps (so fuel `poolSize + cap + 1`
covering the final terminal-detecting iteration always suffices from a fresh
run), because every non-terminal step either removes exactly one candidate
from the pool (leaving the counter unchanged) or increments the run-wide
counter by exactly one (leaving the pool unchanged). -/
theorem loop_reaches_terminal_state :
    (∀ cfg dryRun cap oracles s,
      (∀ j, ((oracles : Nat → StepOracle) j).emitOutcome = Except.ok ()) →
      (s : LoopState).totalScrobbled = 0 →
      (runLoop cfg dryRun (some cap) oracles (s.tracks.length + cap + 1) 0 s).isSome
        = true) ∧
    (∀ cfg dryRun m o s s2, (o : StepOracle).emitOutcome = Except.ok () →
      loopStep cfg dryRun m o s = StepOut.next s2 →
      (s2.tracks.length + 1 = (s : LoopState).tracks.length ∧
        s2.totalScrobbled = s.totalScrobbled) ∨
      (s2.tracks = s.tracks ∧ s2.totalScrobbled = s.totalScrobbled + 1)) := by
  constructor
  · intro cfg dryRun cap oracles s hok h0
    apply runLoop_terminates cfg dryRun cap oracles hok
    omega
  · intro cfg dryRun m o s s2 hok hstep
    rcases loopStep_next_shape cfg dryRun m o s s2 hok hstep with
      ⟨he, hidx, htot⟩ | ⟨he, htot⟩
    · refine Or.inl ⟨?_, htot⟩
      rw [he]
      exact List.length_eraseIdx_add_one hidx
    · exact Or.inr ⟨he, htot⟩

/-- Pool for the C8 witness: two candidates, run-wide cap 1. -/
def s8w : LoopState :=
  { tracks := [{ artist := "x", title := "y", playcount := 9 },
               { artist := "u", title := "v", playcount := 2 }],
    cache := [], totalScrobbled := 0, netWrites := 0 }

/-- Oracle stream for the C8 witness: every resolution finds remote count 0,
every emission succeeds. -/
def oracles8w : Nat → StepOracle :=
  fun _ => { draw := 0, resolve := some 0, emitOutcome := Except.ok () }

theorem loop_reaches_terminal_state_witness :
    (runLoop cfgW true (some 1) oracles8w (s8w.tracks.length + 1 + 1) 0 s8w).isSome
      = true :=
  loop_reaches_terminal_state.1 cfgW true 1 oracles8w s8w (fun _ => rfl) rfl

/-! ## Timestamp window (C9) -/

/--
C9: for every scrobble event (the timestamp at line 176 is computed before
the dry-run/live branch, so it is the same in both modes) and every outcome
of the random draw, the computed timestamp lies between 1 minute and 24 hours
before now: it is in the interval [now - 86400, now - 60]. -/
theorem scrobble_timestamp_window (now : Int) (seed : Nat) :
    now - 86400 ≤ scrobbleTimestamp now seed ∧ scrobbleTimestamp now seed ≤ now - 60 := by
  rw [scrobbleTimestamp, randint]
  omega

/-! ## Dry-run frame effect (C10) -/

/-- The dry-run-observable part of a loop state: everything except the
network-write instrumentation. -/
def stripNet (s : LoopState) : List TrackRecord × PCCache × Nat :=
  (s.tracks, s.cache, s.totalScrobbled)

/-- A step outcome up to network writes, keeping the terminal kind. -/
def stepStrip : StepOut → Nat × (List TrackRecord × PCCache × Nat)
  | StepOut.done s => (0, stripNet s)
  | StepOut.limitReached s => (1, stripNet s)
  | StepOut.next s => (2, stripNet s)

theorem loopStep_dry_strip (cfg : Config) (m : Option Nat) (d : Nat)
    (r : Option Nat) (em : Except PyExc Unit) (s : LoopState) :
    stepStrip (loopStep cfg true m (StepOracle.mk d r em) s) =
      stepStrip (loopStep cfg false m (StepOracle.mk d r (Except.ok ())) s) := by
  by_cases h0 : s.tracks.length = 0
  · rw [loopStep, if_pos h0, loopStep, if_pos h0]
  by_cases hl : hitLimit m s.totalScrobbled = true
  · rw [loopStep, if_neg h0, if_pos hl, loopStep, if_neg h0, if_pos hl]
  have hl2 : hitLimit m s.totalScrobbled = false := Bool.not_eq_true _ ▸ hl
  by_cases hc : canScrobble cfg (drawnTrack (StepOracle.mk d r em) s).playcount
      (get_lastfm_playcount r s.cache (drawnKey (StepOracle.mk d r em) s)).1
      (scrobbledOf (get_lastfm_playcount r s.cache (drawnKey (StepOracle.mk d r em) s)).2
        (drawnKey (StepOracle.mk d r em) s)) = true
  · have hdry : scrobble_once true em
        (get_lastfm_playcount r s.cache (drawnKey (StepOracle.mk d r em) s)).2
        (drawnKey (StepOracle.mk d r em) s) =
        ((scrobble_once false (Except.ok ())
          (get_lastfm_playcount r s.cache (drawnKey (StepOracle.mk d r em) s)).2
          (drawnKey (StepOracle.mk d r em) s)).1, 0) := rfl
    have hlive : scrobble_once false (Except.ok ())
        (get_lastfm_playcount r s.cache (drawnKey (StepOracle.mk d r em) s)).2
        (drawnKey (StepOracle.mk d r em) s) =
        ((scrobble_once false (Except.ok ())
          (get_lastfm_playcount r s.cache (drawnKey (StepOracle.mk d r em) s)).2
          (drawnKey (StepOracle.mk d r em) s)).1, 1) := rfl
    cases hX : (scrobble_once false (Except.ok ())
        (get_lastfm_playcount r s.cache (drawnKey (StepOracle.mk d r em) s)).2
        (drawnKey (StepOracle.mk d r em) s)).1 with
    | ok c3 =>
        rw [hX] at hdry hlive
        rw [loopStep_scrobble_ok cfg true m (StepOracle.mk d r em) s c3 0 h0 hl2 hc hdry,
          loopStep_scrobble_ok cfg false m (StepOracle.mk d r (Except.ok ())) s c3 1
            h0 hl2 hc hlive]
        rfl
    | error e =>
        rw [hX] at hdry hlive
        rw [loopStep_scrobble_err cfg true m (StepOracle.mk d r em) s e 0 h0 hl2 hc hdry,
          loopStep_scrobble_err cfg false m (StepOracle.mk d r (Except.ok ())) s e 1
            h0 hl2 hc hlive]
        rfl
  · have hc2 : canScrobble cfg (drawnTrack (StepOracle.mk d r em) s).playcount
        (get_lastfm_playcount r s.cache (drawnKey (StepOracle.mk d r em) s)).1
        (scrobbledOf (get_lastfm_playcount r s.cache
            (drawnKey (StepOracle.mk d r em) s)).2
          (drawnKey (StepOracle.mk d r em) s)) = false := Bool.not_eq_true _ ▸ hc
    rw [loopStep_skip cfg true m (StepOracle.mk d r em) s h0 hl2 hc2,
      loopStep_skip cfg false m (StepOracle.mk d r (Except.ok ())) s h0 hl2 hc2]
    rfl

/--
C10: in dry-run mode `scrobble_once` performs no network write yet returns
exactly the cache update a successful live emission would (so eligibility
state, the run-wide counter, loop branching and termination coincide with a
live run in which every emission succeeds), and a dry-run loop step never
changes the network-write count — only the remote service's state differs. -/
theorem dry_run_equivalence :
    (∀ emit cache k, scrobble_once true emit cache k =
        ((scrobble_once false (Except.ok ()) cache k).1, 0)) ∧
    (∀ cfg m d r em s, stepStrip (loopStep cfg true m (StepOracle.mk d r em) s) =
        stepStrip (loopStep cfg false m (StepOracle.mk d r (Except.ok ())) s)) ∧
    (∀ cfg m o s s2, loopStep cfg true m o s = StepOut.next s2 →
      s2.netWrites = (s : LoopState).netWrites) := by
  refine ⟨fun emit cache k => rfl, fun cfg m d r em s => loopStep_dry_strip cfg m d r em s, ?_⟩
  intro cfg m o s s2 hstep
  obtain ⟨h0, hl⟩ := loopStep_next_facts cfg true m o s s2 hstep
  by_cases hc : canScrobble cfg (drawnTrack o s).playcount
      (get_lastfm_playcount o.resolve s.cache (drawnKey o s)).1
      (scrobbledOf (get_lastfm_playcount o.resolve s.cache (drawnKey o s)).2
        (drawnKey o s)) = true
  · have hdry : scrobble_once true o.emitOutcome
        (get_lastfm_playcount o.resolve s.cache (drawnKey o s)).2 (drawnKey o s) =
        ((scrobble_once false (Except.ok ())
          (get_lastfm_playcount o.resolve s.cache (drawnKey o s)).2
          (drawnKey o s)).1, 0) := rfl
    cases hX : (scrobble_once false (Except.ok ())
        (get_lastfm_playcount o.resolve s.cache (drawnKey o s)).2
        (drawnKey o s)).1 with
    | ok c3 =>
        rw [hX] at hdry
        rw [loopStep_scrobble_ok cfg true m o s c3 0 h0 hl hc hdry] at hstep
        injection hstep with h2
        subst h2
        exact Nat.add_zero _
    | error e =>
        rw [hX] at hdry
        rw [loopStep_scrobble_err cfg true m o s e 0 h0 hl hc hdry] at hstep
        injection hstep with h2
        subst h2
        exact Nat.add_zero _
  · have hc2 : canScrobble cfg (drawnTrack o s).playcount
        (get_lastfm_playcount o.resolve s.cache (drawnKey o s)).1
        (scrobbledOf (get_lastfm_playcount o.resolve s.cache (drawnKey o s)).2
          (drawnKey o s)) = false := Bool.not_eq_true _ ▸ hc
    rw [loopStep_skip cfg true m o s h0 hl hc2] at hstep
    injection hstep with h2
    subst h2
    rfl

/-- Oracle emission outcome used in the C10 witness (a failing live
emission, which dry-run mode must ignore). -/
def em10w : Except PyExc Unit := Except.error PyExc.requestExc

theorem dry_run_equivalence_witness :
    stepStrip (loopStep cfgW true none (StepOracle.mk 0 none em10w) s7w) =
      stepStrip (loopStep cfgW false none (StepOracle.mk 0 none (Except.ok ())) s7w) :=
  dry_run_equivalence.2.1 cfgW none 0 none em10w s7w

end ScrobbleImport
